import Mathlib

/-!
# Verification of the video-transcription pipeline (`src/video_transcriber.py`)

A shallow embedding of the parts of the program the claims are about:

* the size-bounded video splitter `split_video_by_size` (fuelled, since the
  Python recursion has no termination guarantee);
* the chunked transcription orchestration of `transcribe_audio` and the
  size branch of `process_video`;
* the durable cost ledger `TotalCostTracker` (its `add_cost` and in-place
  `save`);
* the per-run usage counters `TranscriptionCounter` / `TokenCounter`;
* the processed-set persistence `save_processed_ids` / `load_processed_ids`.

File sizes are natural numbers of bytes, durations are rationals (exact
stand-ins for Python floats), external effects (ffmpeg re-encoding, the
OpenAI calls, the filesystem) are explicit environment parameters, so every
theorem quantifies over what the outside world may answer.
-/

/-! ## Constants of the source (`video_transcriber.py`, lines 38-44, 366) -/

/-- `MAX_FILE_SIZE = 25 * 1024 * 1024` — the direct-transcription limit. -/
def MAX_FILE_SIZE : ℕ := 25 * 1024 * 1024

/-- The 15MB cap hard-coded in `split_video_by_size` (`15 * 1024 * 1024`). -/
def MB15 : ℕ := 15 * 1024 * 1024

/-! ## The durable cost ledger (`TotalCostTracker`, lines 50-95) -/

/-- The in-memory state of `TotalCostTracker`: the accumulated total and the
timestamp of the last update.  The Python float is modelled as `ℚ`. -/
structure TotalCostTracker where
  total_cost : ℚ
  last_updated : String
deriving DecidableEq

/-- `add_cost` (lines 80-84): `self.total_cost += cost`, stamp the current
time.  (`save` runs right afterwards; persistence is modelled below.) -/
def TotalCostTracker.add_cost (s : TotalCostTracker) (cost : ℚ) (now : String) :
    TotalCostTracker :=
  { total_cost := s.total_cost + cost, last_updated := now }

/-- A whole deployment's worth of `add_cost` calls, applied in order: the
durable total is mutated by nothing else in the source. -/
def applyCosts (s : TotalCostTracker) : List (ℚ × String) → TotalCostTracker
  | [] => s
  | (c, now) :: rest => applyCosts (s.add_cost c now) rest

/-! ## Per-run usage counters (lines 97-162) -/

/-- `TranscriptionCounter`: audio seconds and file count for the current
video. -/
structure TranscriptionCounter where
  total_seconds : ℚ
  total_files : ℕ

/-- `TranscriptionCounter.estimate_cost` (lines 109-113): minutes times the
$0.006 per-minute price. -/
def TranscriptionCounter.estimate_cost (c : TranscriptionCounter) : ℚ :=
  c.total_seconds / 60 * (6 / 1000)

/-- `TokenCounter`: prompt/completion token counts for the current video. -/
structure TokenCounter where
  prompt_tokens : ℕ
  completion_tokens : ℕ

/-- `TokenCounter.estimate_cost` (lines 147-156): $0.01 per 1K prompt tokens
plus $0.03 per 1K completion tokens. -/
def TokenCounter.estimate_cost (c : TokenCounter) : ℚ :=
  (c.prompt_tokens : ℚ) / 1000 * (1 / 100) + (c.completion_tokens : ℚ) / 1000 * (3 / 100)

/-! ## Processed-set persistence (lines 204-229) -/

/-- `save_processed_ids` (lines 217-229): the set is serialised as the sorted
list `sorted(list(processed_ids))`; the JSON file holds exactly that list. -/
def save_processed_ids (processed_ids : Finset String) : List String :=
  processed_ids.sort (· ≤ ·)

/-- `load_processed_ids` (lines 204-215): the JSON list is read back and
turned into a set with `set(id_list)`. -/
def load_processed_ids (id_list : List String) : Finset String :=
  id_list.toFinset

/-! ## Claims C4 and C10 -/

/-- C4: for every `add_cost` call with a non-negative delta the accumulated
total does not decrease, and — the only mutations of the durable total being
`add_cost` calls — any sequence of non-negative deltas leaves the total at
least where it started. -/
theorem C4_add_cost_monotone (s : TotalCostTracker) (c : ℚ) (now : String)
    (h : 0 ≤ c) :
    s.total_cost ≤ (s.add_cost c now).total_cost ∧
    ∀ deltas : List (ℚ × String), (∀ p ∈ deltas, 0 ≤ p.1) →
      s.total_cost ≤ (applyCosts s deltas).total_cost := by
  constructor
  · simpa [TotalCostTracker.add_cost] using h
  · intro deltas
    induction deltas generalizing s with
    | nil => intro _; exact le_refl _
    | cons p rest ih =>
      intro hall
      obtain ⟨c1, now1⟩ := p
      have h0 : 0 ≤ c1 := hall (c1, now1) (List.mem_cons_self _ _)
      have hrest : ∀ q ∈ rest, 0 ≤ q.1 := fun q hq => hall q (List.mem_cons_of_mem _ hq)
      calc s.total_cost ≤ (s.add_cost c1 now1).total_cost := by
            simpa [TotalCostTracker.add_cost] using h0
        _ ≤ (applyCosts (s.add_cost c1 now1) rest).total_cost := ih _ hrest
        _ = (applyCosts s ((c1, now1) :: rest)).total_cost := rfl

/-- Witness for C4 at a concrete input: delta `7/2` on a tracker holding
`5/4`, then the trace `[3, 0, 1/2]`. -/
theorem C4_add_cost_monotone_witness :
    (0 : ℚ) ≤ 7/2 ∧
    ((⟨5/4, "t0"⟩ : TotalCostTracker).total_cost ≤
        ((⟨5/4, "t0"⟩ : TotalCostTracker).add_cost (7/2) "t1").total_cost ∧
      ∀ deltas : List (ℚ × String), (∀ p ∈ deltas, 0 ≤ p.1) →
        (⟨5/4, "t0"⟩ : TotalCostTracker).total_cost ≤
          (applyCosts ⟨5/4, "t0"⟩ deltas).total_cost) :=
  ⟨by norm_num, C4_add_cost_monotone ⟨5/4, "t0"⟩ (7/2) "t1" (by norm_num)⟩

/-- C10: saving a processed-id set and loading it back yields the same set:
`set(sorted(list(s))) = s` at the persistence boundary. -/
theorem C10_processed_ids_roundtrip (processed_ids : Finset String) :
    load_processed_ids (save_processed_ids processed_ids) = processed_ids := by
  unfold load_processed_ids save_processed_ids
  exact Finset.sort_toFinset _ _

/-! ## The size-bounded splitter (`split_video_by_size`, lines 347-472)

The splitter shells out to ffmpeg through MoviePy.  We abstract media files
into a type `α`, and the filesystem/encoder into a `SplitEnv`:
`encode v a b pass` is `subclip(a, b).write_videofile(...)` at the first-
(1000k/crf 28) or second-pass (500k/crf 32) quality profile, `none` covering
both an encode exception and the written file not existing afterwards (the
source treats the two alike).  The Python recursion has no termination
guarantee, so the embedding is fuelled: `none` is a run that did not
complete within the given fuel. -/

/-- The two compression profiles of `split_video_by_size`: the first pass
(lines 390-402) and the more aggressive second pass (lines 420-432). -/
inductive EncodePass where
  | first
  | second
deriving DecidableEq

/-- The outside world as `split_video_by_size` sees it. -/
structure SplitEnv (α : Type) where
  /-- `os.path.exists` on the input path (line 352). -/
  fexists : α → Bool
  /-- `os.path.getsize` (lines 360, 410, 446). -/
  size : α → ℕ
  /-- `VideoFileClip(path).duration` (line 359). -/
  duration : α → ℚ
  /-- Extract the `[a, b]` subclip and re-encode it at the given pass;
  `none` = the write raised or left no file. -/
  encode : α → ℚ → ℚ → EncodePass → Option α

/-- `num_chunks = math.ceil(total_size / (15 * 1024 * 1024))` (line 371). -/
def numChunks (total_size : ℕ) : ℕ :=
  Nat.ceil ((total_size : ℚ) / (MB15 : ℚ))

/-- The time window of part `i` (lines 377-380): `part_duration = total_duration
/ num_chunks`, `start = i * part_duration`, `end = min((i+1) * part_duration,
total_duration)`. -/
def partWindow (total_duration : ℚ) (num_chunks : ℕ) (i : ℕ) : ℚ × ℚ :=
  ((i : ℚ) * (total_duration / (num_chunks : ℚ)),
    min (((i : ℚ) + 1) * (total_duration / (num_chunks : ℚ))) total_duration)

/-- One window of the `for i in range(num_chunks)` loop (lines 376-464),
given `recur` = the recursive `split_video_by_size(part_path, chunk_duration
// 2)` call of line 452.  Per window:

* pass-1 encode failed or produced no file → the `except`/`continue` paths
  (lines 405-407, 463-464): nothing is appended;
* pass-1 part within 15MB → appended (line 460);
* oversized after pass 1 → second-pass compress (lines 414-432); if that
  raised or produced no file, the *original oversized* part is appended
  (lines 435-438 and the comment at line 458);
* compressed within 15MB → appended;
* compressed still oversized → recurse and splice the sub-parts in place
  (lines 450-454).

`none` propagates a recursion that did not complete. -/
def windowParts (env : SplitEnv α) (recur : α → Option (List α))
    (v : α) (total_duration : ℚ) (num_chunks : ℕ) (i : ℕ) : Option (List α) :=
  match env.encode v (partWindow total_duration num_chunks i).1
      (partWindow total_duration num_chunks i).2 .first with
  | none => some []
  | some part =>
    if env.size part ≤ MB15 then some [part]
    else
      match env.encode v (partWindow total_duration num_chunks i).1
          (partWindow total_duration num_chunks i).2 .second with
      | none => some [part]
      | some compressed =>
        if env.size compressed ≤ MB15 then some [compressed]
        else recur compressed

/-- The whole `for i in range(num_chunks)` loop: the windows\' parts in
order.  `none` as soon as one window\'s recursion did not complete. -/
def splitChunks (env : SplitEnv α) (recur : α → Option (List α))
    (v : α) (total_duration : ℚ) (num_chunks : ℕ) : List ℕ → Option (List α)
  | [] => some []
  | i :: rest => do
    let ps ← windowParts env recur v total_duration num_chunks i
    let qs ← splitChunks env recur v total_duration num_chunks rest
    pure (ps ++ qs)

/-- `split_video_by_size(video_path, chunk_duration=600)` (lines 347-472),
fuelled.  A missing input returns `[]` (lines 352-354); a file within 15MB is
returned whole (lines 366-368); otherwise the file is cut into
`numChunks` windows and each window handled by `splitChunks`, the recursive
call taking `chunk_duration // 2` (integer division, line 452).  `none` =
the run did not complete within `fuel` recursion levels. -/
def split_video_by_size (env : SplitEnv α) :
    ℕ → α → ℕ → Option (List α)
  | 0, _, _ => none
  | fuel + 1, video_path, chunk_duration =>
    if env.fexists video_path = false then some []
    else
      let total_size := env.size video_path
      if total_size ≤ MB15 then some [video_path]
      else
        splitChunks env
          (fun part => split_video_by_size env fuel part (chunk_duration / 2))
          video_path (env.duration video_path) (numChunks total_size)
          (List.range (numChunks total_size))

/-- Every part a window emits is within 15MB, provided every encode yields a
file and the recursion only emits parts within 15MB. -/
theorem windowParts_sizes (env : SplitEnv α) (recur : α → Option (List α))
    (v : α) (d : ℚ) (n i : ℕ) (parts : List α)
    (henc : ∀ w a b p, (env.encode w a b p).isSome = true)
    (hrec : ∀ w ps, recur w = some ps → ∀ p ∈ ps, env.size p ≤ MB15)
    (h : windowParts env recur v d n i = some parts) :
    ∀ p ∈ parts, env.size p ≤ MB15 := by
  intro p hp
  unfold windowParts at h
  obtain ⟨part, hpart⟩ := Option.isSome_iff_exists.mp
    (henc v (partWindow d n i).1 (partWindow d n i).2 .first)
  rw [hpart] at h
  simp only at h
  by_cases h1 : env.size part ≤ MB15
  · rw [if_pos h1] at h
    obtain rfl : [part] = parts := Option.some.inj h
    obtain rfl := List.mem_singleton.mp hp
    exact h1
  · rw [if_neg h1] at h
    obtain ⟨compressed, hcomp⟩ := Option.isSome_iff_exists.mp
      (henc v (partWindow d n i).1 (partWindow d n i).2 .second)
    rw [hcomp] at h
    simp only at h
    by_cases h2 : env.size compressed ≤ MB15
    · rw [if_pos h2] at h
      obtain rfl : [compressed] = parts := Option.some.inj h
      obtain rfl := List.mem_singleton.mp hp
      exact h2
    · rw [if_neg h2] at h
      exact hrec compressed parts h p hp

/-- Every part a completed `splitChunks` loop emits is within 15MB, under the
same assumptions. -/
theorem splitChunks_sizes (env : SplitEnv α) (recur : α → Option (List α))
    (v : α) (d : ℚ) (n : ℕ)
    (henc : ∀ w a b p, (env.encode w a b p).isSome = true)
    (hrec : ∀ w ps, recur w = some ps → ∀ p ∈ ps, env.size p ≤ MB15) :
    ∀ idxs parts, splitChunks env recur v d n idxs = some parts →
      ∀ p ∈ parts, env.size p ≤ MB15 := by
  intro idxs
  induction idxs with
  | nil =>
    intro parts h p hp
    obtain rfl : ([] : List α) = parts := Option.some.inj h
    simp at hp
  | cons i rest ih =>
    intro parts h p hp
    simp only [splitChunks, Option.bind_eq_bind, Option.bind_eq_some, Option.pure_def,
      Option.some.injEq] at h
    obtain ⟨ps, hps, qs, hqs, rfl⟩ := h
    rcases List.mem_append.mp hp with hl | hr
    · exact windowParts_sizes env recur v d n i ps henc hrec hps p hl
    · exact ih qs hqs p hr

/-- C1 (amended): when every re-encode succeeds, a run of
`split_video_by_size` that completes emits only parts within the 15MB limit.
(The unamended claim fails: on a second-pass encode failure the source
appends the oversized first-pass part with only a printed warning, and it has
no recursion-depth/duration floor to assert — see the counterexample.) -/
theorem C1_split_sizes_when_encodes_succeed (env : SplitEnv α)
    (henc : ∀ w a b p, (env.encode w a b p).isSome = true) :
    ∀ fuel (video_path : α) chunk_duration parts,
      split_video_by_size env fuel video_path chunk_duration = some parts →
      ∀ p ∈ parts, env.size p ≤ MB15 := by
  intro fuel
  induction fuel with
  | zero =>
    intro v cd parts h
    simp [split_video_by_size] at h
  | succ fuel ih =>
    intro v cd parts h p hp
    simp only [split_video_by_size] at h
    by_cases hex : env.fexists v = false
    · rw [if_pos hex] at h
      obtain rfl : ([] : List α) = parts := Option.some.inj h
      simp at hp
    · rw [if_neg hex] at h
      by_cases hsmall : env.size v ≤ MB15
      · rw [if_pos hsmall] at h
        obtain rfl : [v] = parts := Option.some.inj h
        obtain rfl := List.mem_singleton.mp hp
        exact hsmall
      · rw [if_neg hsmall] at h
        exact splitChunks_sizes env _ v (env.duration v) (numChunks (env.size v))
          henc (fun w ps hw => ih w (cd / 2) ps hw) _ parts h p hp


/-- `numChunks` of a 16MB file is 2. -/
theorem numChunks_16MB : numChunks 16777216 = 2 := by
  unfold numChunks MB15
  rw [Nat.ceil_eq_iff (by norm_num)]
  norm_num

/-- A concrete run refuting the unamended C1: a 16MB input whose windows
first-pass encode to 16MB parts and whose second-pass compression raises (or
leaves no file).  Lines 456-460 then append the oversized first-pass part
with only a printed warning — no assertion, no recursion floor. -/
def cexSplitEnv : SplitEnv ℕ where
  fexists := fun _ => true
  size := fun _ => 16777216
  duration := fun _ => 1200
  encode := fun v _ _ pass =>
    match pass with
    | .first => some (v + 1)
    | .second => none

/-- C1 counterexample: on the 16MB input (over the limit) with failing
second-pass compression, `split_video_by_size` returns normally — no
assertion, the source has none to give — and the returned list contains a
part of 16MB, over the 15MB limit. -/
theorem C1_counterexample :
    split_video_by_size cexSplitEnv 1 0 600 = some [1, 1] ∧
    MB15 < cexSplitEnv.size 0 ∧ MB15 < cexSplitEnv.size 1 := by
  refine ⟨?_, by norm_num [cexSplitEnv, MB15], by norm_num [cexSplitEnv, MB15]⟩
  simp only [split_video_by_size, cexSplitEnv]
  norm_num [numChunks_16MB, splitChunks, windowParts, MB15, List.range_succ]

/-- An environment where every re-encode succeeds: a 16MB input whose
windows encode to 10MB parts. -/
def okSplitEnv : SplitEnv ℕ where
  fexists := fun _ => true
  size := fun v => if v = 0 then 16777216 else 10485760
  duration := fun _ => 1200
  encode := fun v _ _ _ => some (v + 1)

/-- Every `okSplitEnv` encode yields a file. -/
theorem okSplitEnv_encodes : ∀ w a b p, (okSplitEnv.encode w a b p).isSome = true := by
  intro w a b p
  rfl

/-- A completed `okSplitEnv` run on the 16MB input. -/
theorem okSplitEnv_run : split_video_by_size okSplitEnv 1 0 600 = some [1, 1] := by
  simp only [split_video_by_size, okSplitEnv]
  norm_num [numChunks_16MB, splitChunks, windowParts, MB15, List.range_succ]

/-- Witness for the amended C1 at a concrete input: the 16MB file of
`okSplitEnv` splits into the parts `[1, 1]`, and each is within 15MB. -/
theorem C1_witness :
    split_video_by_size okSplitEnv 1 0 600 = some [1, 1] ∧
    ∀ p ∈ [1, 1], okSplitEnv.size p ≤ MB15 :=
  ⟨okSplitEnv_run,
    C1_split_sizes_when_encodes_succeed okSplitEnv okSplitEnv_encodes
      1 0 600 [1, 1] okSplitEnv_run⟩

/-- The failing input for C2: an incompressible 16MB video — every re-encode
at either quality profile yields another 16MB file (e.g. content already at
the codec's floor).  The source then recurses at line 452 forever; nothing
tracks depth, and `chunk_duration` (halved each level) is never consulted by
the size-based splitting. -/
def badSplitEnv : SplitEnv ℕ where
  fexists := fun _ => true
  size := fun _ => 16777216
  duration := fun _ => 1200
  encode := fun _ _ _ _ => some 0

/-- Field computations of `badSplitEnv`, kept as rewrite rules so the
environment stays folded during the divergence proof. -/
theorem badSplitEnv_fields :
    (∀ v : ℕ, badSplitEnv.fexists v = true) ∧ (∀ v : ℕ, badSplitEnv.size v = 16777216) ∧
    (∀ (v : ℕ) (a b : ℚ) (p : EncodePass), badSplitEnv.encode v a b p = some 0) :=
  ⟨fun _ => rfl, fun _ => rfl, fun _ _ _ _ => rfl⟩

/-- C2: on the incompressible input, `split_video_by_size` completes within
no amount of fuel — the recursion of line 452 never terminates, because the
source has no recursion-depth or minimum-chunk-duration floor at which it
would force-accept a best-effort segment. -/
theorem C2_split_no_floor_diverges :
    ∀ (fuel chunk_duration v : ℕ),
      split_video_by_size badSplitEnv fuel v chunk_duration = none := by
  intro fuel
  induction fuel with
  | zero => intro cd v; rfl
  | succ fuel ih =>
    intro cd v
    simp only [split_video_by_size]
    norm_num [badSplitEnv_fields.1, badSplitEnv_fields.2.1, badSplitEnv_fields.2.2,
      numChunks_16MB, splitChunks, windowParts, MB15, List.range_succ, ih]

/-! ## Claim C6: the window partition geometry -/

/-- The union of `n` consecutive width-`c` intervals starting at `0` is
`[0, n*c]`. -/
theorem iUnion_Icc_consecutive (c : ℚ) (hc : 0 ≤ c) :
    ∀ n : ℕ, 1 ≤ n →
      (⋃ i ∈ Finset.range n, Set.Icc ((i : ℚ) * c) (((i : ℚ) + 1) * c)) =
        Set.Icc 0 ((n : ℚ) * c) := by
  intro n
  induction n with
  | zero => intro h; exact absurd h (by norm_num)
  | succ n ih =>
    intro _
    rcases Nat.eq_zero_or_pos n with rfl | hn
    · simp
    · rw [Finset.range_succ, Finset.set_biUnion_insert, ih hn, Set.union_comm]
      have h1 : (0 : ℚ) ≤ (n : ℚ) * c := by positivity
      have h2 : (n : ℚ) * c ≤ ((n : ℚ) + 1) * c := by nlinarith
      calc Set.Icc 0 ((n : ℚ) * c) ∪ Set.Icc ((n : ℚ) * c) (((n : ℚ) + 1) * c)
          = Set.Icc 0 (((n : ℚ) + 1) * c) := Set.Icc_union_Icc_eq_Icc h1 h2
        _ = Set.Icc 0 ((((n : ℕ) + 1 : ℕ) : ℚ) * c) := by push_cast; ring_nf

/-- C6: for a file over the 15MB limit with duration `d ≥ 0`, the source
computes `num_chunks = ceil(size / 15MB)` (characterised by the two bounds
below), and the windows `[i*d/n, min((i+1)*d/n, d)]` are well-formed,
contiguous, clamped to `d` on the last window, and cover `[0, d]` exactly
with no overlap beyond shared endpoints. -/
theorem C6_window_partition (total_size : ℕ) (d : ℚ) (n : ℕ)
    (hsize : MB15 < total_size) (hd : 0 ≤ d) (hn : n = numChunks total_size) :
    ((total_size : ℚ) / (MB15 : ℚ) ≤ (n : ℚ) ∧ ((n : ℚ) - 1) < (total_size : ℚ) / (MB15 : ℚ))
    ∧ 2 ≤ n
    ∧ (∀ i, i < n → (partWindow d n i).1 ≤ (partWindow d n i).2)
    ∧ (∀ i, i + 1 < n → (partWindow d n i).2 = (partWindow d n (i + 1)).1)
    ∧ (partWindow d n 0).1 = 0
    ∧ (partWindow d n (n - 1)).2 = d
    ∧ (⋃ i ∈ Finset.range n, Set.Icc (partWindow d n i).1 (partWindow d n i).2) =
        Set.Icc 0 d := by
  have hMB : (0 : ℚ) < (MB15 : ℚ) := by norm_num [MB15]
  have hq : (0 : ℚ) ≤ (total_size : ℚ) / (MB15 : ℚ) := by positivity
  have h1q : (1 : ℚ) < (total_size : ℚ) / (MB15 : ℚ) := by
    rw [lt_div_iff₀ hMB]
    norm_num
    exact_mod_cast hsize
  have h2n : 2 ≤ n := by
    rw [hn]
    have : 1 < numChunks total_size := by
      unfold numChunks
      rw [Nat.lt_ceil]
      exact_mod_cast h1q
    omega
  have hn0 : (0 : ℚ) < (n : ℚ) := by exact_mod_cast (by omega : 0 < n)
  have hupper : (total_size : ℚ) / (MB15 : ℚ) ≤ (n : ℚ) := by
    rw [hn]; exact Nat.le_ceil _
  have hlower : ((n : ℚ) - 1) < (total_size : ℚ) / (MB15 : ℚ) := by
    have := Nat.ceil_lt_add_one hq
    rw [hn]
    rw [sub_lt_iff_lt_add]
    exact_mod_cast (by rw [hn] at *; exact_mod_cast this)
  have hc : (0 : ℚ) ≤ d / (n : ℚ) := by positivity
  have hdn : (n : ℚ) * (d / (n : ℚ)) = d := by field_simp
  have hmin : ∀ i : ℕ, i < n →
      min (((i : ℚ) + 1) * (d / (n : ℚ))) d = ((i : ℚ) + 1) * (d / (n : ℚ)) := by
    intro i hi
    apply min_eq_left
    have hle : ((i : ℚ) + 1) ≤ (n : ℚ) := by exact_mod_cast (by omega : i + 1 ≤ n)
    calc ((i : ℚ) + 1) * (d / (n : ℚ)) ≤ (n : ℚ) * (d / (n : ℚ)) := by nlinarith
      _ = d := hdn
  refine ⟨⟨hupper, hlower⟩, h2n, ?_, ?_, ?_, ?_, ?_⟩
  · intro i hi
    unfold partWindow
    rw [hmin i hi]
    have : (0 : ℚ) ≤ (i : ℚ) := by positivity
    nlinarith
  · intro i hi
    unfold partWindow
    rw [hmin i (by omega)]
    push_cast
    ring
  · unfold partWindow
    norm_num
  · unfold partWindow
    have h1n : 1 ≤ n := by omega
    rw [hmin (n - 1) (by omega)]
    have : (((n - 1 : ℕ) : ℚ) + 1) = (n : ℚ) := by
      push_cast [Nat.cast_sub h1n]
      ring
    rw [this, hdn]
  · have hcong : (⋃ i ∈ Finset.range n, Set.Icc (partWindow d n i).1 (partWindow d n i).2) =
        ⋃ i ∈ Finset.range n,
          Set.Icc ((i : ℚ) * (d / (n : ℚ))) (((i : ℚ) + 1) * (d / (n : ℚ))) := by
      apply Set.iUnion₂_congr
      intro i hi
      unfold partWindow
      rw [hmin i (Finset.mem_range.mp hi)]
    rw [hcong, iUnion_Icc_consecutive (d / (n : ℚ)) hc n (by omega), hdn]

/-- `numChunks` of a 40MB file is 3. -/
theorem numChunks_40MB : numChunks 41943040 = 3 := by
  unfold numChunks MB15
  rw [Nat.ceil_eq_iff (by norm_num)]
  norm_num

/-- Witness for C6 at a concrete input: a 40MB file of duration 1200s,
split into 3 windows. -/
theorem C6_window_partition_witness :
    MB15 < 41943040 ∧ (0 : ℚ) ≤ 1200 ∧ 3 = numChunks 41943040 ∧
    (((41943040 : ℚ) / (MB15 : ℚ) ≤ (3 : ℚ) ∧
        ((3 : ℚ) - 1) < (41943040 : ℚ) / (MB15 : ℚ))
      ∧ 2 ≤ 3
      ∧ (∀ i, i < 3 → (partWindow 1200 3 i).1 ≤ (partWindow 1200 3 i).2)
      ∧ (∀ i, i + 1 < 3 → (partWindow 1200 3 i).2 = (partWindow 1200 3 (i + 1)).1)
      ∧ (partWindow 1200 3 0).1 = 0
      ∧ (partWindow 1200 3 (3 - 1)).2 = 1200
      ∧ (⋃ i ∈ Finset.range 3, Set.Icc (partWindow 1200 3 i).1 (partWindow 1200 3 i).2) =
          Set.Icc 0 1200) :=
  ⟨by norm_num [MB15], by norm_num, numChunks_40MB.symm,
    C6_window_partition 41943040 1200 3 (by norm_num [MB15]) (by norm_num)
      numChunks_40MB.symm⟩

/-! ## Chunked transcription (`transcribe_audio`, lines 542-653)

`transcribe_audio` measures the duration, transcribes files of at most 600
seconds in one OpenAI call, and otherwise splits the file with
`split_video_by_size(video_path, 600)` and walks the chunks.  The external
world is a `TAEnv`: `call` is one `openai.audio.transcriptions.create`
request, whose failure the source classifies by searching the message for
"token limit" (line 604) — `errTokenLimit` — or not (`errOther`); `split` is
the chunk list `split_video_by_size` produces for a path and chunk duration
(the splitter itself is embedded above; here its result is part of the
environment so the orchestration can be studied for any splitter answer). -/

/-- The outcome the source can distinguish for one transcription request
(lines 601-604): success, a size/token-limit error, or any other error. -/
inductive CallOutcome where
  | ok (text : String)
  | errTokenLimit
  | errOther
deriving DecidableEq

/-- The outside world as `transcribe_audio` sees it. -/
structure TAEnv (α : Type) where
  /-- `os.path.exists` (lines 548, 586, 610). -/
  fexists : α → Bool
  /-- `VideoFileClip(path).duration` (line 555). -/
  duration : α → ℚ
  /-- `split_video_by_size(path, cd)` as the orchestration observes it. -/
  split : α → ℕ → List α
  /-- One `openai.audio.transcriptions.create` call on a file. -/
  call : α → CallOutcome

/-- The sub-piece loop body of the token-limit branch (lines 608-629): a
missing sub-chunk leaves a not-found marker, a failing transcription the
inline failure marker `[Erro na transcrição da parte {i+1}.{j+1}]`, a success
its text. -/
def subTranscript (env : TAEnv α) (i j : ℕ) (small_chunk : α) : String :=
  if env.fexists small_chunk = false then
    "[Subchunk " ++ toString (j + 1) ++ " não encontrado]"
  else
    match env.call small_chunk with
    | CallOutcome.ok t => t
    | _ => "[Erro na transcrição da parte " ++ toString (i + 1) ++ "." ++ toString (j + 1) ++ "]"

/-- The transcripts chunk `i` contributes (lines 582-631): its text on
success; a not-found marker if the chunk file is missing; on a token-limit
error the chunk alone is re-split with the **halved** chunk duration
(`chunk_duration // 2`, line 606) and every resulting piece transcribed
independently; on any other error the inline marker
`[Erro na transcrição da parte {i+1}]`. -/
def chunkTranscripts (env : TAEnv α) (chunk_duration i : ℕ) (c : α) : List String :=
  if env.fexists c = false then ["[Chunk " ++ toString (i + 1) ++ " não encontrado]"]
  else
    match env.call c with
    | CallOutcome.ok t => [t]
    | CallOutcome.errTokenLimit =>
        (env.split c (chunk_duration / 2)).enum.map fun pj => subTranscript env i pj.1 pj.2
    | CallOutcome.errOther => ["[Erro na transcrição da parte " ++ toString (i + 1) ++ "]"]

/-- The `for i, chunk_path in enumerate(chunks)` loop (line 582), collecting
every chunk's transcripts in order into the flat `transcripts` list. -/
def loopChunks (env : TAEnv α) (chunk_duration : ℕ) : ℕ → List α → List String
  | _, [] => []
  | i, c :: rest => chunkTranscripts env chunk_duration i c ++ loopChunks env chunk_duration (i + 1) rest

/-- `transcribe_audio(video_path)` (lines 542-653): a missing file raises
(line 549); a file of at most `chunk_duration = 600` seconds is transcribed
in one call, whose error propagates (the whole body's `except` re-raises,
line 653); a longer file is split and its chunks walked, the final text
being the space-join of the collected transcripts (line 647). -/
def transcribe_audio (env : TAEnv α) (video_path : α) : Except Unit String :=
  if env.fexists video_path = false then Except.error ()
  else if env.duration video_path ≤ 600 then
    match env.call video_path with
    | CallOutcome.ok t => Except.ok t
    | _ => Except.error ()
  else
    Except.ok (String.intercalate " " (loopChunks env 600 0 (env.split video_path 600)))

/-- How many transcription requests the sub-piece loop issues for one
sub-chunk: one, unless the file is missing (lines 610-620). -/
def subCallCount (env : TAEnv α) (small_chunk : α) : ℕ :=
  if env.fexists small_chunk = false then 0 else 1

/-- How many transcription requests chunk `i` causes (lines 582-631): none
if missing; one on success or a non-token-limit error — the failure is
terminal at once, nothing retries the call; on a token-limit error, one plus
one per existing re-split piece. -/
def chunkCallCount (env : TAEnv α) (chunk_duration : ℕ) (c : α) : ℕ :=
  if env.fexists c = false then 0
  else
    match env.call c with
    | CallOutcome.ok _ => 1
    | CallOutcome.errTokenLimit =>
        1 + ((env.split c (chunk_duration / 2)).map (subCallCount env)).sum
    | CallOutcome.errOther => 1

/-- How many transcription requests `transcribe_audio` issues in total. -/
def taCallCount (env : TAEnv α) (video_path : α) : ℕ :=
  if env.fexists video_path = false then 0
  else if env.duration video_path ≤ 600 then 1
  else ((env.split video_path 600).map (chunkCallCount env 600)).sum

/-- The size branch of `process_video` (lines 1478-1486): a file of at most
`MAX_FILE_SIZE` (25MB) goes to `transcribe_audio` whole, a larger one is
split first. -/
def processVideoTranscribesDirectly (file_size : ℕ) : Bool :=
  file_size ≤ MAX_FILE_SIZE

/-- `loopChunks` over a concatenation: the second half is processed
unchanged, continuing at the shifted chunk index. -/
theorem loopChunks_append (env : TAEnv α) (chunk_duration : ℕ) :
    ∀ (xs ys : List α) (i : ℕ),
      loopChunks env chunk_duration i (xs ++ ys) =
        loopChunks env chunk_duration i xs ++ loopChunks env chunk_duration (i + xs.length) ys := by
  intro xs
  induction xs with
  | nil => intro ys i; simp [loopChunks]
  | cons x xs ih =>
    intro ys i
    have hidx : i + 1 + xs.length = i + (xs.length + 1) := by omega
    simp only [List.cons_append, loopChunks, List.append_eq, ih, List.length_cons,
      List.append_assoc, hidx]

/-- C7: when chunk at position `|pre|` fails with a token-limit error, the
loop re-splits exactly that chunk with the halved chunk duration
(`chunk_duration / 2`), transcribes each resulting piece independently in
that chunk's position, and the surrounding chunks — including all of `post` —
are processed unchanged; a failing sub-piece becomes the inline marker
`[Erro na transcrição da parte {i+1}.{j+1}]` rather than aborting. -/
theorem C7_token_limit_resplits_one_chunk (env : TAEnv α) (chunk_duration : ℕ)
    (pre post : List α) (c : α)
    (hex : env.fexists c = true)
    (htok : env.call c = CallOutcome.errTokenLimit) :
    loopChunks env chunk_duration 0 (pre ++ c :: post) =
      loopChunks env chunk_duration 0 pre
        ++ ((env.split c (chunk_duration / 2)).enum.map fun pj =>
              subTranscript env pre.length pj.1 pj.2)
        ++ loopChunks env chunk_duration (pre.length + 1) post
    ∧ ∀ (j : ℕ) (small_chunk : α), env.fexists small_chunk = true →
        (∀ t, env.call small_chunk ≠ CallOutcome.ok t) →
        subTranscript env pre.length j small_chunk =
          "[Erro na transcrição da parte " ++ toString (pre.length + 1) ++ "."
            ++ toString (j + 1) ++ "]" := by
  constructor
  · rw [loopChunks_append]
    simp only [loopChunks, chunkTranscripts, hex, htok, Bool.true_eq_false, if_false,
      List.append_assoc, Nat.zero_add]
  · intro j small_chunk hsex hne
    cases hcall : env.call small_chunk with
    | ok t => exact absurd hcall (hne t)
    | errTokenLimit => simp [subTranscript, hsex, hcall]
    | errOther => simp [subTranscript, hsex, hcall]

/-- A concrete orchestration run: file 0 is 1900s long and splits into
chunks `[1, 2, 3]`; chunk 2 hits the token limit and re-splits (at the
halved duration 300) into `[4, 5]`; piece 4 transcribes, piece 5 fails with
a non-token-limit error; chunks 1 and 3 transcribe. -/
def cexTAEnv : TAEnv ℕ where
  fexists := fun _ => true
  duration := fun v => if v = 0 then 1900 else 300
  split := fun v cd =>
    if v = 0 then [1, 2, 3] else if v = 2 ∧ cd = 300 then [4, 5] else []
  call := fun v =>
    if v = 1 then CallOutcome.ok "alpha"
    else if v = 2 then CallOutcome.errTokenLimit
    else if v = 3 then CallOutcome.ok "gamma"
    else if v = 4 then CallOutcome.ok "beta"
    else CallOutcome.errOther

/-- Witness for C7 at a concrete input: chunk 2 of `[1, 2, 3]` hits the
token limit; the loop's output replaces position 1 by the transcripts of the
re-split pieces `[4, 5]` and still processes chunk 3. -/
theorem C7_token_limit_resplits_one_chunk_witness :
    loopChunks cexTAEnv 600 0 ([1] ++ 2 :: [3]) =
      loopChunks cexTAEnv 600 0 [1]
        ++ ((cexTAEnv.split 2 (600 / 2)).enum.map fun pj =>
              subTranscript cexTAEnv (List.length [1]) pj.1 pj.2)
        ++ loopChunks cexTAEnv 600 (List.length [1] + 1) [3]
    ∧ ∀ (j : ℕ) (small_chunk : ℕ), cexTAEnv.fexists small_chunk = true →
        (∀ t, cexTAEnv.call small_chunk ≠ CallOutcome.ok t) →
        subTranscript cexTAEnv (List.length [1]) j small_chunk =
          "[Erro na transcrição da parte " ++ toString (List.length [1] + 1) ++ "."
            ++ toString (j + 1) ++ "]" :=
  C7_token_limit_resplits_one_chunk cexTAEnv 600 [1] [3] 2 rfl rfl

/-- `numChunks` of a 20MB file is 2. -/
theorem numChunks_20MB : numChunks 20971520 = 2 := by
  unfold numChunks MB15
  rw [Nat.ceil_eq_iff (by norm_num)]
  norm_num

/-- C9 (amended): a file within the 25MB `MAX_FILE_SIZE` is handed whole to
`transcribe_audio` by `process_video`, and — provided its duration is also
at most 600 seconds — it is transcribed in exactly one external call, the
splitter never invoked, the result being that single call's text. -/
theorem C9_direct_single_call (env : TAEnv α) (video_path : α) (file_size : ℕ)
    (hsize : file_size ≤ MAX_FILE_SIZE)
    (hex : env.fexists video_path = true)
    (hdur : env.duration video_path ≤ 600) :
    processVideoTranscribesDirectly file_size = true
    ∧ taCallCount env video_path = 1
    ∧ ∀ t, env.call video_path = CallOutcome.ok t →
        transcribe_audio env video_path = Except.ok t := by
  refine ⟨by simp [processVideoTranscribesDirectly, hsize], ?_, ?_⟩
  · simp [taCallCount, hex, hdur]
  · intro t hc
    simp [transcribe_audio, hex, hdur, hc]

/-- The splitter's view of the C9 counterexample: a 20MB, 601-second video
whose two windows first-pass encode to 12MB parts. -/
def c9SplitEnv : SplitEnv ℕ where
  fexists := fun _ => true
  size := fun v => if v = 0 then 20971520 else 12582912
  duration := fun _ => 601
  encode := fun v _ _ _ => some (v + 1)

/-- The orchestration's view of the same video: `split_video_by_size`
answers with the two parts the splitter produces, and every part
transcribes fine. -/
def c9TAEnv : TAEnv ℕ where
  fexists := fun _ => true
  duration := fun _ => 601
  split := fun v cd => if v = 0 ∧ cd = 600 then [1, 1] else []
  call := fun v => if v = 0 then CallOutcome.ok "whole" else CallOutcome.ok "part"

/-- C9 counterexample: a 20MB file is under the 25MB direct-transcription
limit, yet its duration 601s exceeds the 600s threshold inside
`transcribe_audio`, so the file **is** split (the embedded splitter cuts it
into two re-encoded parts) and transcribed in two external calls, not one. -/
theorem C9_counterexample :
    processVideoTranscribesDirectly 20971520 = true
    ∧ ¬ ((601 : ℚ) ≤ 600)
    ∧ split_video_by_size c9SplitEnv 1 0 600 = some [1, 1]
    ∧ taCallCount c9TAEnv 0 = 2
    ∧ taCallCount c9TAEnv 0 ≠ 1
    ∧ transcribe_audio c9TAEnv 0 = Except.ok "part part" := by
  refine ⟨by norm_num [processVideoTranscribesDirectly, MAX_FILE_SIZE], by norm_num, ?_, ?_, ?_, ?_⟩
  · simp only [split_video_by_size, c9SplitEnv]
    norm_num [numChunks_20MB, splitChunks, windowParts, MB15, List.range_succ]
  · norm_num [taCallCount, c9TAEnv, chunkCallCount, subCallCount]
  · norm_num [taCallCount, c9TAEnv, chunkCallCount, subCallCount]
  · norm_num [transcribe_audio, c9TAEnv, loopChunks, chunkTranscripts]
    rfl

/-- Witness for the amended C9: a 1000-byte, 300-second file (file 1 of
`cexTAEnv`) is transcribed directly, in one call, yielding its text. -/
theorem C9_direct_single_call_witness :
    (1000 ≤ MAX_FILE_SIZE ∧ cexTAEnv.fexists 1 = true ∧ cexTAEnv.duration 1 ≤ 600)
    ∧ (processVideoTranscribesDirectly 1000 = true
        ∧ taCallCount cexTAEnv 1 = 1
        ∧ ∀ t, cexTAEnv.call 1 = CallOutcome.ok t →
            transcribe_audio cexTAEnv 1 = Except.ok t) :=
  ⟨⟨by norm_num [MAX_FILE_SIZE], rfl, by norm_num [cexTAEnv]⟩,
    C9_direct_single_call cexTAEnv 1 1000 (by norm_num [MAX_FILE_SIZE]) rfl
      (by norm_num [cexTAEnv])⟩

/-! ## Retry with backoff (`generate_sales_analysis`, lines 711-818)

The analysis/report/speaker-identification calls run inside
`for attempt in range(max_retries)` with `max_retries = 3` and
`retry_delay = 5`, sleeping and doubling the delay after each failure that
is not the last attempt (lines 798-804).  The per-segment transcription
calls of `transcribe_audio` have **no** such loop: the embedding above
issues each request once (`chunkCallCount`). -/

/-- The retry loop (lines 713-716, 798-804): `call attempt = true` is a
successful attempt.  Returns how many attempts ran and the backoff delays
slept, in order.  The fuel argument mirrors `range(max_retries)`; the loop
is entered with `fuel = max_retries`, `attempt = 0`, `retry_delay = 5`. -/
def retryAttempts (call : ℕ → Bool) (max_retries : ℕ) : ℕ → ℕ → ℕ → ℕ × List ℕ
  | 0, attempt, _ => (attempt, [])
  | fuel + 1, attempt, retry_delay =>
    if call attempt then (attempt + 1, [])
    else if attempt < max_retries - 1 then
      ((retryAttempts call max_retries fuel (attempt + 1) (retry_delay * 2)).1,
        retry_delay :: (retryAttempts call max_retries fuel (attempt + 1) (retry_delay * 2)).2)
    else (attempt + 1, [])

/-- `generate_sales_analysis`'s retry behaviour: 3 attempts starting at a
5-second delay. -/
def generate_sales_analysis_retry (call : ℕ → Bool) : ℕ × List ℕ :=
  retryAttempts call 3 3 0 5

/-- C8 (amended): the analysis-generation retry loop makes at most 3
attempts and its backoff delays strictly increase (they are a prefix of
`[5, 10]`, doubling each retry); the per-segment transcription call, by
contrast, is issued exactly once — a non-token-limit failure becomes the
terminal inline marker immediately, with no retry and no backoff. -/
theorem C8_retry_ceiling_and_single_transcription_attempt
    (call : ℕ → Bool) (env : TAEnv α) (c : α) (i : ℕ)
    (hex : env.fexists c = true) (herr : env.call c = CallOutcome.errOther) :
    (generate_sales_analysis_retry call).1 ≤ 3
    ∧ List.Chain' (· < ·) (generate_sales_analysis_retry call).2
    ∧ ((generate_sales_analysis_retry call).2 = []
        ∨ (generate_sales_analysis_retry call).2 = [5]
        ∨ (generate_sales_analysis_retry call).2 = [5, 10])
    ∧ chunkCallCount env 600 c = 1
    ∧ chunkTranscripts env 600 i c =
        ["[Erro na transcrição da parte " ++ toString (i + 1) ++ "]"] := by
  refine ⟨?_, ?_, ?_, ?_, ?_⟩
  · cases h0 : call 0 <;> cases h1 : call 1 <;> cases h2 : call 2 <;>
      simp [generate_sales_analysis_retry, retryAttempts, h0, h1, h2]
  · cases h0 : call 0 <;> cases h1 : call 1 <;> cases h2 : call 2 <;>
      simp [generate_sales_analysis_retry, retryAttempts, h0, h1, h2]
  · cases h0 : call 0 <;> cases h1 : call 1 <;> cases h2 : call 2 <;>
      simp [generate_sales_analysis_retry, retryAttempts, h0, h1, h2]
  · simp [chunkCallCount, hex, herr]
  · simp [chunkTranscripts, hex, herr]

/-- C8 counterexample: a chunk whose transcription fails with a transient
(non-token-limit) error is attempted exactly once — not retried up to the
3-attempt ceiling, with no backoff — and its failure is immediately terminal
as the inline marker in the output. -/
theorem C8_counterexample :
    cexTAEnv.call 5 = CallOutcome.errOther
    ∧ chunkCallCount cexTAEnv 600 5 = 1
    ∧ chunkTranscripts cexTAEnv 600 1 5 = ["[Erro na transcrição da parte 2]"]
    ∧ (1 : ℕ) < 3 := by
  refine ⟨rfl, rfl, ?_, by norm_num⟩
  simp [chunkTranscripts, cexTAEnv]
  rfl

/-- Witness for the amended C8 at a concrete input: every attempt of the
analysis call fails, and chunk 5 of `cexTAEnv` fails transiently. -/
theorem C8_retry_ceiling_witness :
    (cexTAEnv.fexists 5 = true ∧ cexTAEnv.call 5 = CallOutcome.errOther)
    ∧ ((generate_sales_analysis_retry (fun _ => false)).1 ≤ 3
        ∧ List.Chain' (· < ·) (generate_sales_analysis_retry (fun _ => false)).2
        ∧ ((generate_sales_analysis_retry (fun _ => false)).2 = []
            ∨ (generate_sales_analysis_retry (fun _ => false)).2 = [5]
            ∨ (generate_sales_analysis_retry (fun _ => false)).2 = [5, 10])
        ∧ chunkCallCount cexTAEnv 600 5 = 1
        ∧ chunkTranscripts cexTAEnv 600 1 5 =
            ["[Erro na transcrição da parte " ++ toString (1 + 1) ++ "]"]) :=
  ⟨⟨rfl, rfl⟩,
    C8_retry_ceiling_and_single_transcription_attempt (fun _ => false) cexTAEnv 5 1 rfl rfl⟩

/-! ## The split branch of `process_video` (lines 1483-1530) -/

/-- What one part's `transcribe_audio` attempt can look like from
`process_video`'s loop (lines 1494-1516): the part file is missing
(`continue`, nothing collected), the call returns a text, or it raises. -/
inductive PartOutcome where
  | missing
  | ok (text : String)
  | err
deriving DecidableEq

/-- The inline failure marker appended at line 1511. -/
def falhaMarker : String := " [Falha na transcrição. Continua na próxima parte.] "

/-- The `all_transcripts` list after the part loop (lines 1494-1516). -/
def partTranscripts : List PartOutcome → List String
  | [] => []
  | PartOutcome.missing :: rest => partTranscripts rest
  | PartOutcome.ok t :: rest => t :: partTranscripts rest
  | PartOutcome.err :: rest => falhaMarker :: partTranscripts rest

/-- The marker test of line 1519: `t.startswith(" [Falha")`. -/
def isFalhaMarker (t : String) : Bool := t.startsWith " [Falha"

/-- Lines 1518-1524: raise `ValueError` when not a single collected
transcript is a non-marker (`if not any(not t.startswith(" [Falha") for t in
all_transcripts)`), else join everything with single spaces. -/
def processSplitTranscripts (parts : List PartOutcome) : Except String String :=
  if ((partTranscripts parts).any fun t => !(isFalhaMarker t)) = false then
    Except.error "Todas as partes da transcrição falharam. Não foi possível transcrever o vídeo."
  else
    Except.ok (String.intercalate " " (partTranscripts parts))

/-- A successful part's text is among the collected transcripts. -/
theorem ok_mem_partTranscripts (t : String) :
    ∀ parts : List PartOutcome, PartOutcome.ok t ∈ parts → t ∈ partTranscripts parts := by
  intro parts
  induction parts with
  | nil => intro h; simp at h
  | cons p rest ih =>
    intro h
    rcases List.mem_cons.mp h with heq | hmem
    · rw [← heq]
      simp [partTranscripts]
    · cases p with
      | missing => exact ih hmem
      | ok s => simp [partTranscripts, ih hmem]
      | err => simp [partTranscripts, ih hmem]

/-- C3: if some part's transcription succeeded with a non-marker text, the
file-level operation does not raise the total-loss error and returns the
space-joined transcript; and, in general, it raises exactly when every
collected transcript is a failure marker — a total loss. -/
theorem C3_total_loss_only_when_all_fail (parts : List PartOutcome) (t : String)
    (hmem : PartOutcome.ok t ∈ parts) (hm : isFalhaMarker t = false) :
    processSplitTranscripts parts =
      Except.ok (String.intercalate " " (partTranscripts parts))
    ∧ ∀ ps : List PartOutcome,
        (∃ e, processSplitTranscripts ps = Except.error e) ↔
          ∀ s ∈ partTranscripts ps, isFalhaMarker s = true := by
  constructor
  · unfold processSplitTranscripts
    have hany : ((partTranscripts parts).any fun s => !(isFalhaMarker s)) = true := by
      rw [List.any_eq_true]
      exact ⟨t, ok_mem_partTranscripts t parts hmem, by rw [hm]; rfl⟩
    rw [hany]
    simp
  · intro ps
    unfold processSplitTranscripts
    by_cases hany : ((partTranscripts ps).any fun s => !(isFalhaMarker s)) = false
    · rw [hany]
      simp only [if_true, reduceIte]
      constructor
      · intro _ s hs
        rw [List.any_eq_false] at hany
        have := hany s hs
        simpa using this
      · intro _
        exact ⟨_, rfl⟩
    · rw [Bool.not_eq_false] at hany
      rw [hany]
      simp only [Bool.true_eq_false, reduceIte]
      constructor
      · intro ⟨e, he⟩
        exact absurd he (by simp)
      · intro hall
        rw [List.any_eq_true] at hany
        obtain ⟨s, hs, hns⟩ := hany
        have := hall s hs
        rw [this] at hns
        simp at hns

/-- Witness for C3 at a concrete input: of three parts, the first raises,
the second transcribes to a non-marker text, the third file is missing. -/
theorem C3_total_loss_only_when_all_fail_witness :
    (PartOutcome.ok "ola" ∈ [PartOutcome.err, PartOutcome.ok "ola", PartOutcome.missing]
      ∧ isFalhaMarker "ola" = false)
    ∧ (processSplitTranscripts [PartOutcome.err, PartOutcome.ok "ola", PartOutcome.missing] =
        Except.ok (String.intercalate " "
          (partTranscripts [PartOutcome.err, PartOutcome.ok "ola", PartOutcome.missing]))
      ∧ ∀ ps : List PartOutcome,
          (∃ e, processSplitTranscripts ps = Except.error e) ↔
            ∀ s ∈ partTranscripts ps, isFalhaMarker s = true) :=
  ⟨⟨by simp, by decide⟩,
    C3_total_loss_only_when_all_fail [PartOutcome.err, PartOutcome.ok "ola", PartOutcome.missing]
      "ola" (by simp) (by decide)⟩

/-! ## Durable persistence of the ledger (`TotalCostTracker.save`, lines 68-78)

`save` opens `total_cost.json` with mode `'w'` — which truncates the file in
place — and then writes the serialised record.  There is no write to a
temporary file followed by an atomic replace, so a crash between the
truncation and the completed write leaves neither the old nor the new
record on disk. -/

/-- The serialised record `json.dump({'total_cost': .., 'last_updated': ..})`
of lines 72-76. -/
def serializeLedger (total_cost : ℚ) (last_updated : String) : String :=
  "\x7b\"total_cost\": " ++ toString total_cost
    ++ ", \"last_updated\": \"" ++ last_updated ++ "\"\x7d"

/-- The observable steps of `save`: `open(TOTAL_COST_FILE, 'w')` truncates,
then the record is written. -/
inductive SaveStep where
  | truncate
  | writeData
deriving DecidableEq

/-- The ledger file's content after the given save steps have run; a crash
is modelled by running only the steps completed before it. -/
def runSave (content : String) (file : String) : List SaveStep → String
  | [] => file
  | SaveStep.truncate :: rest => runSave content "" rest
  | SaveStep.writeData :: rest => runSave content content rest

/-- The full in-place save, in the order the source performs it. -/
def inPlaceSaveSteps : List SaveStep := [SaveStep.truncate, SaveStep.writeData]

/-- `add_cost` and its synchronous `save` (lines 80-84): the new tracker
state and the file content once the save completes. -/
def addCostAndSave (s : TotalCostTracker) (cost : ℚ) (now : String) (file : String) :
    TotalCostTracker × String :=
  ((s.add_cost cost now),
    runSave (serializeLedger (s.add_cost cost now).total_cost
        (s.add_cost cost now).last_updated) file inPlaceSaveSteps)

/-- A serialised ledger record is never the empty string. -/
theorem serializeLedger_ne_empty (total_cost : ℚ) (last_updated : String) :
    serializeLedger total_cost last_updated ≠ "" := by
  intro h
  have hlen := congrArg String.length h
  simp only [serializeLedger, String.length_append] at hlen
  have h13 : ("\x7b\"total_cost\": " : String).length = 15 := by decide
  rw [h13] at hlen
  simp at hlen

/-- C5 (amended): every commit persists the new total synchronously — the
completed save leaves exactly the serialised new record — but it does so by
truncating and rewriting the ledger file in place; the intermediate state
after the truncation is the empty file, which is neither the old record nor
the (never empty) serialised new one. -/
theorem C5_save_truncates_in_place (s : TotalCostTracker) (cost : ℚ)
    (now file : String) :
    (addCostAndSave s cost now file).1.total_cost = s.total_cost + cost
    ∧ (addCostAndSave s cost now file).2 = serializeLedger (s.total_cost + cost) now
    ∧ runSave (serializeLedger (s.total_cost + cost) now) file [SaveStep.truncate] = ""
    ∧ ∀ t ts, serializeLedger t ts ≠ "" :=
  ⟨rfl, rfl, rfl, serializeLedger_ne_empty⟩

/-- C5 counterexample: with the old record `serializeLedger 1 "A"` on disk
and `serializeLedger 2 "B"` being committed, a crash immediately after the
truncating `open(..., 'w')` leaves the empty file — a corrupted state that
is neither the old record nor the new one. -/
theorem C5_counterexample :
    runSave (serializeLedger 2 "B") (serializeLedger 1 "A") [SaveStep.truncate] = ""
    ∧ serializeLedger 1 "A" ≠ ""
    ∧ serializeLedger 2 "B" ≠ "" :=
  ⟨rfl, serializeLedger_ne_empty 1 "A", serializeLedger_ne_empty 2 "B"⟩
